import Mathlib

/-!
Verification of the market-metadata normalization layer of
`nautilus_trader/adapters/ccxt/providers.pyx` (class `CCXTInstrumentProvider`).

The Python/Cython source is shallowly embedded: dictionaries become structures
with `Option` fields (a `dict.get` that may miss), fallible lookups return
`Except PyErr`, Python floats (IEEE-754 binary64) are embedded as exact
dyadic values `m * 2 ^ ex` with explicit round-to-nearest-even, and Python
`Decimal` values as an integer coefficient with a decimal scale.
-/

/-- Errors that the embedded code can raise.  `keyError`, `attributeError`,
`typeError`, `valueError`, `overflowError` and `runtimeError` model the
corresponding Python exceptions raised by the source.
`malformedMarketDefinition` is the typed structural error named by the spec
(section 7); it is declared here so that statements can compare the actual
errors against it, and it is never produced by the embedded code. -/
inductive PyErr where
  | keyError (key : String)
  | attributeError
  | typeError
  | valueError
  | overflowError
  | runtimeError (msg : String)
  | malformedMarketDefinition (symbol : String) (field : String)
deriving DecidableEq

/-- A nonnegative decimal number `m / 10 ^ e`, the form in which raw market
and currency dictionaries carry their numeric leaves.  A Python float leaf is
identified with the (normalized, shortest round-trip) decimal literal that
produced it, so `m` is not divisible by 10 unless the value is an integer. -/
structure PyNum where
  m : Nat
  e : Nat
deriving DecidableEq

/-- The exact rational value of a decimal leaf. -/
def PyNum.toRat (v : PyNum) : ℚ := (v.m : ℚ) / (10 : ℚ) ^ v.e

/-- Fuel-driven binary logarithm; structural recursion so that kernel
reduction works on literals (the library `Nat.log2` is well-founded and does
not reduce).  Correct whenever `n < 2 ^ fuel`. -/
def natLog2Aux : Nat → Nat → Nat
  | 0, _ => 0
  | fuel + 1, n => if n ≤ 1 then 0 else natLog2Aux fuel (n / 2) + 1

/-- Chunked variant: strip 256 bits per step, then finish bit by bit, so the
recursion depth stays small for the magnitudes this file computes with. -/
def natLog2Big : Nat → Nat → Nat
  | 0, _ => 0
  | fuel + 1, n => if n < 2 ^ 256 then natLog2Aux 256 n else natLog2Big fuel (n / 2 ^ 256) + 256

/-- `⌊log2 n⌋` for the magnitudes this development computes with (every
number fed to it is far below `2 ^ 4352`). -/
def natLog2 (n : Nat) : Nat := natLog2Big 17 n

/-- Decimal digits of `n`, most significant first, driven by explicit fuel so
that the recursion is structural (one step per produced digit). -/
def natDigitsAux : Nat → Nat → List Char
  | 0, _ => []
  | fuel + 1, n => if n < 10 then [Nat.digitChar n]
      else natDigitsAux fuel (n / 10) ++ [Nat.digitChar (n % 10)]

/-- Decimal digit string of `n`, most significant first (`"0"` for 0).
`natLog2 n + 2` steps of fuel suffice since `n` has at most
`log2 n + 1` decimal digits. -/
def natDigits (n : Nat) : List Char := natDigitsAux (natLog2 n + 2) n

/-- Fixed-point decimal rendering of `m / 10 ^ e`, in the style of Python
(a float with integral value gains a trailing `.0`). -/
def fixedPointString (m e : Nat) : String :=
  let ds := natDigits m
  if e = 0 then String.mk (ds ++ ['.', '0'])
  else if e < ds.length then
    String.mk (ds.take (ds.length - e) ++ ['.'] ++ ds.drop (ds.length - e))
  else String.mk (['0', '.'] ++ List.replicate (e - ds.length) '0' ++ ds)

/-- Exponent suffix of a Python scientific float rendering: a sign followed by
the exponent magnitude padded to at least two digits, e.g. `e-05`, `e+16`. -/
def sciExpString (x : Int) : String :=
  let ds := natDigits x.natAbs
  let ds2 := if ds.length < 2 then '0' :: ds else ds
  String.mk ((if x < 0 then ['e', '-'] else ['e', '+']) ++ ds2)

/-- Python `str` of the nonnegative float whose shortest round-trip decimal
form is `m * 10 ^ (-e)`: fixed-point when the decimal exponent lies in
`[-4, 16)`, scientific notation otherwise (CPython `float_repr` behavior). -/
def pyFloatReprPos (m e : Nat) : String :=
  if m = 0 then "0.0" else
  let ds := natDigits m
  let x : Int := (ds.length : Int) - 1 - (e : Int)
  if x < -4 ∨ 16 ≤ x then
    (match ds with
      | [] => ""
      | [d] => String.mk [d]
      | d :: rest => String.mk ([d, '.'] ++ rest)) ++ sciExpString x
  else fixedPointString m e

/-- Python `str` of a float-valued decimal leaf. -/
def pyFloatRepr (v : PyNum) : String := pyFloatReprPos v.m v.e

/-- Characters after the first `.` of `s`; empty when `s` has no dot.  This is
the third component of the Python `partition` call in the source. -/
def afterDot (s : String) : List Char :=
  (s.data.dropWhile (fun c => c ≠ '.')).drop 1

/-- Drop trailing `'0'` characters, the Python `rstrip` of the source. -/
def dropTrailingZeros (l : List Char) : List Char :=
  (l.reverse.dropWhile (fun c => c = '0')).reverse

/-- Embedding of `_tick_size_to_precision` (providers.pyx line 151) applied to
the `str` rendering of its `double` argument:
`len(str(tick_size).partition(.)[2].rstrip(0))`. -/
def tick_size_to_precision (s : String) : Nat :=
  (dropTrailingZeros (afterDot s)).length

/-- The count of non-trailing-zero fractional digits of `m * 10 ^ (-e)`
rendered in fixed-point form — the quantity the spec says TICK_SIZE mode
precision resolution returns. -/
def fixedPointFracDigits (m e : Nat) : Nat :=
  (dropTrailingZeros (afterDot (fixedPointString m e))).length

example : tick_size_to_precision (pyFloatReprPos 1 4) = 4 := by decide
example : tick_size_to_precision "0.0100" = 2 := by decide
example : pyFloatReprPos 1 5 = "1e-05" := by decide
example : pyFloatReprPos 25 6 = "2.5e-05" := by decide
example : pyFloatReprPos 1 0 = "1.0" := by decide
example : fixedPointFracDigits 1 5 = 5 := by decide

/-- A finite IEEE-754 binary64 value `m * 2 ^ ex` (nonnegative).  After
rounding at the binary64 grid the mantissa `m` is below `2 ^ 53` for normal
results (or equals `2 ^ 53` after a carry, which denotes the same value). -/
structure FP where
  m : Nat
  ex : Int
deriving DecidableEq

/-- Round `a / b` to the nearest integer, ties to even (the rounding used by
IEEE-754 and by CPython float formatting). -/
def roundDivHE (a b : Nat) : Nat :=
  let q := a / b
  let r := a % b
  if 2 * r < b then q
  else if b < 2 * r then q + 1
  else if q % 2 = 0 then q else q + 1

/-- Whether `2 ^ c ≤ a / b` (as exact rationals), by cross multiplication. -/
def flog2Check (a b : Nat) (c : Int) : Bool :=
  if 0 ≤ c then decide (b * 2 ^ c.toNat ≤ a) else decide (b ≤ a * 2 ^ (-c).toNat)

/-- `⌊log2 (a / b)⌋` for a positive rational `a / b`: the candidate
`log2 a - log2 b` is correct or off by one above, which the check resolves. -/
def findFloorLog2Div (a b : Nat) : Int :=
  let d : Int := (natLog2 a : Int) - (natLog2 b : Int)
  if flog2Check a b d then d else d - 1

/-- Round the rational `(a / b) / 2 ^ g` to the nearest integer, ties to
even, with the scaling folded into an exact integer division. -/
def roundAtGrid (a b : Nat) (g : Int) : Nat :=
  if 0 ≤ g then roundDivHE a (b * 2 ^ g.toNat) else roundDivHE (a * 2 ^ (-g).toNat) b

/-- Round the positive rational `a / b` to the binary64 grid: the grid step is
`2 ^ (⌊log2⌋ - 52)` for normal values and `2 ^ (-1074)` in the subnormal
range.  Overflow is not handled here (callers check it). -/
def nearestFP (a b : Nat) : FP :=
  let e := findFloorLog2Div a b
  let g := max (e - 52) (-1074)
  ⟨roundAtGrid a b g, g⟩

/-- Python conversion of a nonnegative `int` to `float`: round to nearest
binary64, raising `OverflowError` when the value rounds beyond the largest
finite double.  The largest finite double is `(2 ^ 53 - 1) * 2 ^ 971`, so
with round-to-nearest (ties away from the finite range) exactly the integers
`n ≥ 2 ^ 1024 - 2 ^ 970` overflow. -/
def pyFloatOfNat (n : Nat) : Except PyErr FP :=
  if 2 ^ 1024 - 2 ^ 970 ≤ n then .error .overflowError else .ok (nearestFP n 1)

/-- IEEE-754 binary64 reciprocal `1 / x` for positive `x`: the exact quotient
rounded to nearest (this pipeline never overflows nor hits zero). -/
def recipFP (x : FP) : FP :=
  if 0 ≤ x.ex then nearestFP 1 (x.m * 2 ^ x.ex.toNat)
  else nearestFP (2 ^ (-x.ex).toNat) x.m

/-- The integer `N` with `format(x, .pf) = N / 10 ^ p`: the exact binary
value of the float `x` times `10 ^ p`, rounded to nearest, ties to even
(CPython formats floats by correctly rounded decimal conversion). -/
def roundFixedCoeff (x : FP) (p : Nat) : Nat :=
  if 0 ≤ x.ex then x.m * 2 ^ x.ex.toNat * 10 ^ p
  else roundDivHE (x.m * 10 ^ p) (2 ^ (-x.ex).toNat)

/-- Fixed-point rendering of `N / 10 ^ p` with exactly `p` fractional digits,
as produced by a Python `.pf` format of a nonnegative value. -/
def renderFixedNat (N p : Nat) : String :=
  if p = 0 then String.mk (natDigits N)
  else
    let ds := natDigits N
    let pad := if ds.length < p + 1 then List.replicate (p + 1 - ds.length) '0' ++ ds else ds
    String.mk (pad.take (pad.length - p) ++ ['.'] ++ pad.drop (pad.length - p))

/-- Embedding of the tick-size string of providers.pyx line 168 for
DECIMAL_PLACES mode: the decimal coefficient of
`f"\x7b1.0 / 10 ** p:.\x7bp\x7df\x7d"`, i.e. the float `1.0 / 10 ** p`
(binary64 division of 1 by the float conversion of the exact integer
`10 ** p`) correctly rounded to `p` fractional decimal digits. -/
def decimalTickCoeff (p : Nat) : Except PyErr Nat :=
  (pyFloatOfNat (10 ^ p)).map fun d => roundFixedCoeff (recipFP d) p

/-- The tick-size string itself (providers.pyx line 168). -/
def decimalTickString (p : Nat) : Except PyErr String :=
  (decimalTickCoeff p).map fun N => renderFixedNat N p

/-- The string the spec says the tick size must equal:
`"0." ++ (p-1) zeros ++ "1"`. -/
def unitTickString (p : Nat) : String :=
  "0." ++ String.mk (List.replicate (p - 1) '0') ++ "1"

/-- Boolean form of the claim, on the decimal coefficient: the tick string
is exact at precision `p` iff its coefficient rounds to exactly 1. -/
def tickCoeffOkB (p : Nat) : Bool :=
  match decimalTickCoeff p with
  | .ok n => n == 1
  | .error _ => false

deriving instance DecidableEq for Except

set_option maxRecDepth 40000 in
example : decimalTickString 2 = .ok "0.01" := by decide

set_option maxRecDepth 40000 in
example : decimalTickString 1 = .ok "0.1" := by decide

set_option maxRecDepth 100000 in
set_option maxHeartbeats 4000000 in
/-- Exhaustive kernel check of the exactness of the formatted reciprocal
power of ten for every representable precision (1 to 308; from 309 on the
integer `10 ** p` no longer converts to a float). -/
lemma tickCoeffOk_small : ∀ p : Nat, p < 309 → 1 ≤ p → tickCoeffOkB p = true := by decide

lemma tickCoeffOkB_eq_ok {p : Nat} (h : tickCoeffOkB p = true) : decimalTickCoeff p = .ok 1 := by
  cases hc : decimalTickCoeff p with
  | ok n =>
      have hb : (n == 1) = true := by
        unfold tickCoeffOkB at h; rw [hc] at h; exact h
      rw [eq_of_beq hb]
  | error e =>
      exfalso
      unfold tickCoeffOkB at h; rw [hc] at h; exact Bool.false_ne_true h

lemma natDigits_one : natDigits 1 = ['1'] := by decide

lemma renderFixedNat_one {p : Nat} (h : 1 ≤ p) : renderFixedNat 1 p = unitTickString p := by
  obtain ⟨q, rfl⟩ : ∃ q, p = q + 1 := ⟨p - 1, by omega⟩
  unfold renderFixedNat unitTickString
  rw [natDigits_one]
  simp only [List.length_cons, List.length_nil]
  rw [if_neg (by omega), if_pos (by omega)]
  have hrep : List.replicate (q + 1 + 1 - 1) '0' = '0' :: List.replicate q '0' := by
    simp [List.replicate_succ]
  rw [hrep]
  apply String.ext
  simp [String.data_append, List.length_replicate, List.replicate_succ]

lemma pow_ten_ge_309 {p : Nat} (h : 309 ≤ p) : 2 ^ 1024 - 2 ^ 970 ≤ 10 ^ p := by
  have h1 : (2 : Nat) ^ 1024 - 2 ^ 970 ≤ 10 ^ 309 := by norm_num
  exact le_trans h1 (Nat.pow_le_pow_right (by norm_num) h)

lemma decimalTickCoeff_overflow {p : Nat} (h : 309 ≤ p) :
    decimalTickCoeff p = .error .overflowError := by
  unfold decimalTickCoeff pyFloatOfNat
  rw [if_pos (pow_ten_ge_309 h)]
  rfl

/-- C2: for every integer `price_precision = p ≥ 1` under DECIMAL_PLACES
mode, whenever the builder derives a tick-size string (the format of
`1.0 / 10 ** p` with `p` fractional digits, providers.pyx line 168), that
string is exactly `"0." ++ (p-1) zeros ++ "1"`: the binary floating-point
division introduces no drift visible at `p` fractional digits for any `p`
(for `p ≥ 309` the conversion of `10 ** p` to a float overflows, so no
string is produced at all). -/
theorem c2_decimal_tick_string_exact :
    ∀ (p : Nat) (s : String), 1 ≤ p → decimalTickString p = .ok s → s = unitTickString p := by
  intro p s h1 h2
  by_cases hp : p < 309
  · have hco := tickCoeffOkB_eq_ok (tickCoeffOk_small p hp h1)
    unfold decimalTickString at h2
    rw [hco] at h2
    simp only [Except.map] at h2
    cases h2
    exact renderFixedNat_one h1
  · have hov := decimalTickCoeff_overflow (by omega : 309 ≤ p)
    unfold decimalTickString at h2
    rw [hov] at h2
    simp [Except.map] at h2

set_option maxRecDepth 40000 in
/-- Witness for C2 at `p = 2`: the produced string is `"0.01"`. -/
theorem c2_witness :
    decimalTickString 2 = .ok "0.01" ∧ "0.01" = unitTickString 2 := by
  constructor
  · decide
  · exact c2_decimal_tick_string_exact 2 "0.01" (by decide) (by decide)

/-- C1 (code evaluation at the failing input): for the positive tick
`0.00001 = 1e-05` (smaller than `1e-4`), Python renders the float in
scientific notation, so the `partition`-based digit count of
`_tick_size_to_precision` returns 0, while the count of non-trailing-zero
fractional digits of the fixed-point rendering — the precision the spec
prescribes — is 5. -/
theorem c1_tick_below_1e4_precision_zero :
    tick_size_to_precision (pyFloatRepr ⟨1, 5⟩) = 0 ∧ fixedPointFracDigits 1 5 = 5 := by
  decide

/-- FIAT or CRYPTO classification of a currency code. -/
inductive CurrencyType where
  | fiat
  | crypto
deriving DecidableEq

/-- A canonical currency record (code, precision, classification).  Modelled
from the spec: the `Currency` class lives outside this slice; the spec
describes it as `{code, precision, currency_type}`. -/
structure Currency where
  code : String
  precision : Int
  currencyType : CurrencyType
deriving DecidableEq

/-- The only asset class this layer produces. -/
inductive AssetClass where
  | crypto
deriving DecidableEq

/-- Modelled from the spec: a fixed enumeration of asset types; an absent or
unrecognized raw string maps to the UNDEFINED sentinel. -/
inductive AssetType where
  | undefined
  | spot
  | swap
  | future
  | option
deriving DecidableEq

/-- ASCII upper-casing of one character (the Python `str.upper` on the
asset-type codes this source meets). -/
def pyCharUpper (c : Char) : Char :=
  if 'a' ≤ c ∧ c ≤ 'z' then Char.ofNat (c.toNat - 32) else c

/-- ASCII upper-casing of a string. -/
def pyUpper (s : String) : String := String.mk (s.data.map pyCharUpper)

/-- Modelled from the spec: `AssetTypeParser.from_str` applied to the
upper-cased raw string; unrecognized values collapse to UNDEFINED. -/
def parseAssetTypeStr (s : String) : AssetType :=
  if s = "SPOT" then .spot
  else if s = "SWAP" then .swap
  else if s = "FUTURE" then .future
  else if s = "OPTION" then .option
  else .undefined

/-- A venue-scoped ticker (the `Symbol(code, venue)` of identifiers.pyx). -/
structure SymbolId where
  code : String
  venue : String
deriving DecidableEq

/-- A Python `Decimal`: integer coefficient and decimal scale, denoting
`coeff / 10 ^ scale`.  Finite binary floats expand exactly into this form. -/
structure PyDecimal where
  coeff : Int
  scale : Nat
deriving DecidableEq

/-- `Decimal(x)` for a float `x` given by its shortest decimal literal: the
exact value of the nearest binary64, expanded as a decimal (a dyadic
`m * 2 ^ ex` equals `m * 5 ^ k / 10 ^ k` for `ex = -k`). -/
def pyDecimalOfFloat (v : PyNum) : PyDecimal :=
  let x := nearestFP v.m (10 ^ v.e)
  if 0 ≤ x.ex then ⟨(x.m * 2 ^ x.ex.toNat : Nat), 0⟩
  else ⟨(x.m * 5 ^ (-x.ex).toNat : Nat), (-x.ex).toNat⟩

/-- Modelled from the spec: the `Quantity` wrapper class is outside this
slice; it records the wrapped value and the precision argument supplied at
the call site (`none` when the constructor was called without an explicit
precision and infers it from the raw value). -/
structure Quantity where
  value : ℚ
  precisionArg : Option Int
deriving DecidableEq

/-- Modelled from the spec: the `Price` wrapper (value at a precision). -/
structure Price where
  value : ℚ
  precision : Int
deriving DecidableEq

/-- Modelled from the spec: the `Money` wrapper (amount in a currency). -/
structure Money where
  amount : ℚ
  currency : Currency
deriving DecidableEq

/-- A Python `dict` with string keys, as an insertion-ordered association
list (the iteration and upsert semantics of CPython dicts). -/
abbrev Dict (α : Type) := List (String × α)

/-- `d.get(k)` / `d[k]` lookup: first binding of `k`. -/
def dlookup {α : Type} : Dict α → String → Option α
  | [], _ => none
  | (k', v) :: rest, k => if k' = k then some v else dlookup rest k

/-- `d[k] = v`: overwrite in place when the key exists, else append. -/
def dinsert {α : Type} : Dict α → String → α → Dict α
  | [], k, v => [(k, v)]
  | (k', v') :: rest, k, v =>
      if k' = k then (k', v) :: rest else (k', v') :: dinsert rest k v

/-- The `precision` sub-dictionary of a raw market. -/
structure RawPrecisions where
  price : Option PyNum
  amount : Option PyNum
deriving DecidableEq

/-- A `{max, min}` bounds sub-dictionary. -/
structure RawBounds where
  max : Option PyNum
  min : Option PyNum
deriving DecidableEq

/-- The `limits` sub-dictionary (`amount` and `cost` blocks may be absent,
in which case the chained `.get(...).get(...)` of the source raises
`AttributeError` on `None`). -/
structure RawLimits where
  amount : Option RawBounds
  cost : Option RawBounds
deriving DecidableEq

/-- The venue-specific `info` block (only `lotSize` is read). -/
structure RawInfo where
  lotSize : Option PyNum
deriving DecidableEq

/-- One raw CCXT market definition.  `Option` marks keys the source reads
with `.get` (absent tolerated) or with `[...]` (absent raises `KeyError`). -/
structure RawMarket where
  precision : Option RawPrecisions
  limits : Option RawLimits
  type : Option String
  base : Option String
  quote : Option String
  info : Option RawInfo
  maker : Option PyNum
  taker : Option PyNum
deriving DecidableEq

/-- One raw CCXT currency entry (`values["precision"]` is read by index). -/
structure RawCurrency where
  precision : Option PyNum
deriving DecidableEq

/-- Python `int(value)` on a nonnegative decimal: truncation. -/
def pyInt (v : PyNum) : Int := (v.m / 10 ^ v.e : Nat)

/-- Embedding of `_get_precision` (providers.pyx lines 153-157).  Mode 2
(DECIMAL_PLACES) truncates the value to an int; mode 4 (TICK_SIZE) counts
fractional digits of the `str` of the value; any other mode falls off the
end of the Cython `cdef int` function, which returns 0 (there is no
`else` branch and no raise in this function). -/
def get_precision (value : PyNum) (mode : Int) : Int :=
  if mode = 2 then pyInt value
  else if mode = 4 then (tick_size_to_precision (pyFloatRepr value) : Int)
  else 0

/-- Embedding of `_parse_currency_type` (line 159-160); the fiat-code set of
`Currency.is_fiat_c` lives outside this slice and is a parameter. -/
def parse_currency_type (isFiat : String → Bool) (code : String) : CurrencyType :=
  if isFiat code then .fiat else .crypto

/-- The canonical `Instrument` record assembled by `_parse_instrument`
(providers.pyx lines 241-268), field for field. -/
structure Instrument where
  symbol : SymbolId
  assetClass : AssetClass
  assetType : AssetType
  baseCurrency : Option Currency
  quoteCurrency : Currency
  settlementCurrency : Currency
  isInverse : Bool
  pricePrecision : Int
  sizePrecision : Int
  tickSize : PyDecimal
  multiplier : PyDecimal
  leverage : PyDecimal
  lotSize : Quantity
  maxQuantity : Option Quantity
  minQuantity : Option Quantity
  maxNotional : Option Money
  minNotional : Option Money
  maxPrice : Option Price
  minPrice : Option Price
  marginInit : PyDecimal
  marginMaint : PyDecimal
  makerFee : PyDecimal
  takerFee : PyDecimal
  financing : Dict PyDecimal
  timestamp : Nat
  info : RawMarket
deriving DecidableEq

/-- Embedding of the precision/tick-size step of `_parse_instrument`
(providers.pyx lines 162-179).  Returns
`(price_precision, size_precision, tick_size)`.

Mode 2 (DECIMAL_PLACES): an absent `precision.price` makes `10 ** None`
raise `TypeError`; a non-integral one makes the `.pf` format spec raise
`ValueError`; otherwise the tick size is the `Decimal` of the formatted
string of `1.0 / 10 ** p`, whose coefficient is `decimalTickCoeff p` at
scale `p`.  `size_precision` defaults to 8 when `precision.amount` is
absent.

Mode 4 (TICK_SIZE): `Decimal(None)` raises `TypeError` when
`precision.price` is absent; otherwise the tick size is the exact binary
expansion of the float, the price precision is the fractional-digit count
of its `str` (the float survives the `Decimal` round trip unchanged), and
the size precision is derived the same way from `precision.amount`,
treated as the int 0 when absent.

Any other mode raises the `RuntimeError` of lines 177-179. -/
def resolvePrecisions (clientName : String) (mode : Int) (values : RawMarket) :
    Except PyErr (Int × Int × PyDecimal) :=
  match values.precision with
  | none => .error (.keyError "precision")
  | some precisions =>
    if mode = 2 then
      match precisions.price with
      | none => .error .typeError
      | some pp =>
        if pp.e ≠ 0 then .error .valueError
        else
          let sizePrecision : Int := match precisions.amount with
            | none => 8
            | some sa => pyInt sa
          (decimalTickCoeff pp.m).map fun N => ((pp.m : Int), sizePrecision, ⟨(N : Int), pp.m⟩)
    else if mode = 4 then
      match precisions.price with
      | none => .error .typeError
      | some tp =>
        let sizeRaw : PyNum := precisions.amount.getD ⟨0, 0⟩
        .ok ((tick_size_to_precision (pyFloatRepr tp) : Int),
             (tick_size_to_precision (pyFloatRepr sizeRaw) : Int),
             pyDecimalOfFloat tp)
    else .error (.runtimeError ("The " ++ clientName ++ " exchange is using SIGNIFICANT_DIGITS precision which is not currently supported in this version."))

/-- Embedding of the base-currency step (providers.pyx lines 187-191): an
absent `base` key leaves the base currency absent; a present code is looked
up in the canonical table (`Currency.from_str_c`, a parameter here since its
table lives outside this slice) and then in the provider currency cache,
whose indexing raises `KeyError` when the code is missing. -/
def resolveBaseCurrency (global : String → Option Currency) (cache : Dict Currency)
    (values : RawMarket) : Except PyErr (Option Currency) :=
  match values.base with
  | none => .ok none
  | some code =>
    match global code with
    | some c => .ok (some c)
    | none =>
      match dlookup cache code with
      | some c => .ok (some c)
      | none => .error (.keyError code)

/-- Embedding of the quote-currency step (providers.pyx lines 193-195):
`values["quote"]` raises `KeyError` when absent; a code unresolved by both
the canonical table and the cache raises `KeyError(code)` from the cache
indexing. -/
def resolveQuoteCurrency (global : String → Option Currency) (cache : Dict Currency)
    (values : RawMarket) : Except PyErr Currency :=
  match values.quote with
  | none => .error (.keyError "quote")
  | some code =>
    match global code with
    | some c => .ok c
    | none =>
      match dlookup cache code with
      | some c => .ok c
      | none => .error (.keyError code)

/-- Embedding of `_parse_instrument` (providers.pyx lines 162-268), in
source statement order.  `now` is the injected wall clock (the source reads
`datetime.utcnow()`). -/
def parse_instrument (global : String → Option Currency) (cache : Dict Currency)
    (clientName : String) (mode : Int) (now : Nat) (symbol : SymbolId)
    (values : RawMarket) : Except PyErr Instrument := do
  let pre ← resolvePrecisions clientName mode values
  let pricePrecision := pre.1
  let sizePrecision := pre.2.1
  let tickSize := pre.2.2
  let assetType := match values.type with
    | some s => parseAssetTypeStr (pyUpper s)
    | none => AssetType.undefined
  let baseCurrency ← resolveBaseCurrency global cache values
  let quoteCurrency ← resolveQuoteCurrency global cache values
  let limits ← (match values.limits with
    | some l => Except.ok l
    | none => Except.error (PyErr.keyError "limits"))
  let amountB ← (match limits.amount with
    | some b => Except.ok b
    | none => Except.error PyErr.attributeError)
  let maxQuantity := amountB.max.map fun v => Quantity.mk v.toRat (some sizePrecision)
  let minQuantity := amountB.min.map fun v => Quantity.mk v.toRat (some sizePrecision)
  let info ← (match values.info with
    | some i => Except.ok i
    | none => Except.error (PyErr.keyError "info"))
  let lotSize := match info.lotSize with
    | some v => Quantity.mk v.toRat none
    | none => match minQuantity with
      | some mq => Quantity.mk mq.value (some sizePrecision)
      | none => Quantity.mk 1 none
  let costB ← (match limits.cost with
    | some b => Except.ok b
    | none => Except.error PyErr.attributeError)
  let maxNotional := costB.max.map fun v => Money.mk v.toRat quoteCurrency
  let minNotional := costB.min.map fun v => Money.mk v.toRat quoteCurrency
  let maxPrice := costB.max.map fun v => Price.mk v.toRat pricePrecision
  let minPrice := costB.min.map fun v => Price.mk v.toRat pricePrecision
  let makerFee := match values.maker with
    | none => PyDecimal.mk 0 0
    | some v => pyDecimalOfFloat v
  let takerFee := match values.taker with
    | none => PyDecimal.mk 0 0
    | some v => pyDecimalOfFloat v
  .ok ⟨symbol, AssetClass.crypto, assetType, baseCurrency, quoteCurrency, quoteCurrency,
       false, pricePrecision, sizePrecision, tickSize, ⟨1, 0⟩, ⟨1, 0⟩, lotSize,
       maxQuantity, minQuantity, maxNotional, minNotional, maxPrice, minPrice,
       ⟨0, 0⟩, ⟨0, 0⟩, makerFee, takerFee, [], now, values⟩

/-- The construction-time context of one provider: the canonical currency
table, client name, precision mode, venue name and injected clock. -/
structure BuildCtx where
  globalCurrencies : String → Option Currency
  clientName : String
  precisionMode : Int
  venue : String
  now : Nat

/-- One loop iteration body of `_load_instruments`: build the instrument for
market entry `(k, v)` against the current currency cache. -/
def parse_entry (ctx : BuildCtx) (cache : Dict Currency) (k : String) (v : RawMarket) :
    Except PyErr Instrument :=
  parse_instrument ctx.globalCurrencies cache ctx.clientName ctx.precisionMode ctx.now
    ⟨k, ctx.venue⟩ v

/-- The loop of `_load_instruments` (providers.pyx lines 127-131): upsert
each parsed instrument under its symbol code, stopping at (and returning)
the first parse error, with all earlier upserts retained. -/
def load_instruments_loop (ctx : BuildCtx) (cache : Dict Currency) :
    List (String × RawMarket) → Dict Instrument → Dict Instrument × Option PyErr
  | [], st => (st, none)
  | (k, v) :: rest, st =>
    match parse_entry ctx cache k v with
    | .error e => (st, some e)
    | .ok inst => load_instruments_loop ctx cache rest (dinsert st k inst)

/-- The loop of `_load_currencies` (providers.pyx lines 140-148): the
`values["precision"]` indexing raises `KeyError` when absent; otherwise the
currency is rebuilt and upserted.  Note that `_get_precision` cannot raise. -/
def load_currencies_loop (isFiat : String → Bool) (mode : Int) :
    List (String × RawCurrency) → Dict Currency → Dict Currency × Option PyErr
  | [], st => (st, none)
  | (code, v) :: rest, st =>
    match v.precision with
    | none => (st, some (.keyError "precision"))
    | some pv =>
        load_currencies_loop isFiat mode rest
          (dinsert st code ⟨code, get_precision pv mode, parse_currency_type isFiat code⟩)

/-- The mutable state of a `CCXTInstrumentProvider`. -/
structure Provider where
  venue : String
  count : Nat
  currencies : Dict Currency
  instruments : Dict Instrument
deriving DecidableEq

/-- Embedding of `_load_instruments` (lines 122-133) at the provider level:
run the loop over the market entries; only a completed pass recomputes
`count`, while a failing pass leaves `count` untouched and surfaces the
error, keeping whatever the loop already upserted. -/
def Provider.load_instruments (p : Provider) (ctx : BuildCtx)
    (markets : List (String × RawMarket)) : Provider × Option PyErr :=
  let (d, e) := load_instruments_loop ctx p.currencies markets p.instruments
  match e with
  | none => ({ p with instruments := d, count := d.length }, none)
  | some err => ({ p with instruments := d }, some err)

/-- Embedding of `_load_currencies` (lines 135-148) at the provider level. -/
def Provider.load_currencies (p : Provider) (isFiat : String → Bool) (mode : Int)
    (currencies : List (String × RawCurrency)) : Provider × Option PyErr :=
  let (d, e) := load_currencies_loop isFiat mode currencies p.currencies
  (({ p with currencies := d }), e)

/-- Embedding of `get` (lines 91-100): lookup by exact symbol code. -/
def Provider.get (p : Provider) (symbol : SymbolId) : Option Instrument :=
  dlookup p.instruments symbol.code

/-- Embedding of `currency` (lines 102-116). -/
def Provider.currency (p : Provider) (code : String) : Option Currency :=
  dlookup p.currencies code

/-- A heap of dict cells, modelling CPython object identity for the
instrument dictionaries: `get_all` must return a fresh cell (the `.copy()`
of line 89), not the internal one. -/
structure PyHeap where
  cells : List (Dict Instrument)

/-- Dereference a dict cell (missing addresses read as empty). -/
def PyHeap.read (h : PyHeap) (a : Nat) : Dict Instrument := h.cells.getD a []

/-- Mutate the dict cell at `a` in place. -/
def PyHeap.write (h : PyHeap) (a : Nat) (d : Dict Instrument) : PyHeap :=
  ⟨h.cells.set a d⟩

/-- Allocate a fresh cell holding `d`; returns its address. -/
def PyHeap.alloc (h : PyHeap) (d : Dict Instrument) : PyHeap × Nat :=
  (⟨h.cells ++ [d]⟩, h.cells.length)

/-- A provider whose instrument dict lives in the heap at `instrAddr`. -/
structure ProviderRef where
  instrAddr : Nat

/-- Embedding of `get_all` (providers.pyx lines 78-89):
`return self._instruments.copy()` — allocate a fresh dict cell with the same
contents and hand back a reference to it. -/
def get_all (h : PyHeap) (p : ProviderRef) : PyHeap × Nat :=
  PyHeap.alloc h (PyHeap.read h p.instrAddr)

/-- `get` served against the heap-resident instrument dict. -/
def getRef (h : PyHeap) (p : ProviderRef) (symbol : SymbolId) : Option Instrument :=
  dlookup (PyHeap.read h p.instrAddr) symbol.code

/-- Run a sequence of in-place dict mutations (add, remove or replace
entries — any function of the current contents) against the cell at `a`. -/
def applyMuts (h : PyHeap) (a : Nat) : List (Dict Instrument → Dict Instrument) → PyHeap
  | [] => h
  | f :: fs => applyMuts (h.write a (f (h.read a))) a fs

/-- Lookup after upsert: the inserted key reads back the new value, every
other key is untouched. -/
lemma dlookup_dinsert {α : Type} (st : Dict α) (k : String) (v : α) (c : String) :
    dlookup (dinsert st k v) c = if c = k then some v else dlookup st c := by
  induction st with
  | nil =>
      simp only [dinsert, dlookup]
      by_cases h : c = k
      · rw [if_pos (Eq.symm h), if_pos h]
      · rw [if_neg (fun hh => h (Eq.symm hh)), if_neg h]
  | cons hd tl ih =>
      obtain ⟨k', v'⟩ := hd
      simp only [dinsert]
      by_cases hk : k' = k
      · rw [if_pos hk]
        subst hk
        by_cases h : k' = c
        · subst h
          simp [dlookup]
        · simp only [dlookup]
          rw [if_neg h, if_neg (fun hh => h (Eq.symm hh)), if_neg h]
      · rw [if_neg hk]
        simp only [dlookup]
        by_cases h : k' = c
        · rw [if_pos h]
          subst h
          rw [if_neg hk]
          simp [dlookup]
        · rw [if_neg h, ih]
          by_cases h2 : c = k
          · rw [if_pos h2, if_pos h2]
          · rw [if_neg h2, if_neg h2, if_neg h]

/-- A currency sample used by the concrete fixtures below. -/
def sampleCurrency : Currency := ⟨"USDT", 8, .crypto⟩

/-- A canonical currency table resolving only `"USDT"`. -/
def sampleGlobal : String → Option Currency :=
  fun c => if c = "USDT" then some sampleCurrency else none

/-- A fiat-code set containing only `"USD"`. -/
def sampleIsFiat : String → Bool := fun c => c = "USD"

/-- A raw market dictionary with no keys at all. -/
def emptyMarket : RawMarket := ⟨none, none, none, none, none, none, none, none⟩

/-- A complete, well-formed raw market under DECIMAL_PLACES mode: price
precision 2, amount precision 0, `limits.amount.min = 1`, empty cost
limits, quote `"USDT"`, no base, empty info block. -/
def marketA : RawMarket :=
  ⟨some ⟨some ⟨2, 0⟩, some ⟨0, 0⟩⟩,
   some ⟨some ⟨none, some ⟨1, 0⟩⟩, some ⟨none, none⟩⟩,
   some "spot", none, some "USDT", some ⟨none⟩, none, none⟩

/-- `marketA` with an explicit `info.lotSize = 5`. -/
def marketLot : RawMarket :=
  ⟨marketA.precision, marketA.limits, marketA.type, marketA.base, marketA.quote,
   some ⟨some ⟨5, 0⟩⟩, none, none⟩

/-- `marketLot` with a different amount precision (3 instead of 0). -/
def marketLotPrec3 : RawMarket :=
  ⟨some ⟨some ⟨2, 0⟩, some ⟨3, 0⟩⟩, marketA.limits, marketA.type, marketA.base,
   marketA.quote, some ⟨some ⟨5, 0⟩⟩, none, none⟩

/-- `marketA` with a base code `"XYZ"` that no lookup resolves. -/
def marketBadBase : RawMarket :=
  ⟨marketA.precision, marketA.limits, marketA.type, some "XYZ", marketA.quote,
   marketA.info, none, none⟩

/-- The build context of the concrete fixtures. -/
def ctx0 : BuildCtx := ⟨sampleGlobal, "BINANCE", 2, "BINANCE", 0⟩

/-- `Except` success test. -/
def isOkE {ε α : Type} : Except ε α → Bool
  | .ok _ => true
  | .error _ => false

/-- Whether a result failed with the typed structural error of the spec. -/
def errIsMalformed {α : Type} : Except PyErr α → Bool
  | .error (.malformedMarketDefinition _ _) => true
  | _ => false

set_option maxRecDepth 40000 in
example : isOkE (parse_entry ctx0 [] "A" marketA) = true := by decide

set_option maxRecDepth 40000 in
example : parse_entry ctx0 [] "A" emptyMarket = .error (.keyError "precision") := by decide

/-- Keys not mentioned by the processed market list are untouched by the
instrument-load loop, whether or not it fails. -/
lemma load_instruments_loop_stable (ctx : BuildCtx) (cache : Dict Currency) :
    ∀ (markets : List (String × RawMarket)) (st : Dict Instrument) (c : String),
      c ∉ markets.map Prod.fst →
      dlookup (load_instruments_loop ctx cache markets st).1 c = dlookup st c := by
  intro markets
  induction markets with
  | nil => intro st c _; rfl
  | cons hd tl ih =>
      intro st c h
      obtain ⟨k, m⟩ := hd
      simp only [List.map_cons, List.mem_cons] at h
      push_neg at h
      obtain ⟨hck, htl⟩ := h
      simp only [load_instruments_loop]
      cases hp : parse_entry ctx cache k m with
      | error e => rfl
      | ok inst =>
          dsimp only
          rw [ih (dinsert st k inst) c htl, dlookup_dinsert, if_neg hck]

/-- The instrument-load loop never deletes a key, whether or not it fails. -/
lemma load_instruments_loop_mono (ctx : BuildCtx) (cache : Dict Currency) :
    ∀ (markets : List (String × RawMarket)) (st : Dict Instrument) (c : String),
      dlookup st c ≠ none →
      dlookup (load_instruments_loop ctx cache markets st).1 c ≠ none := by
  intro markets
  induction markets with
  | nil => intro st c h; exact h
  | cons hd tl ih =>
      intro st c h
      obtain ⟨k, m⟩ := hd
      simp only [load_instruments_loop]
      cases hp : parse_entry ctx cache k m with
      | error e => exact h
      | ok inst =>
          dsimp only
          apply ih
          rw [dlookup_dinsert]
          by_cases hck : c = k
          · rw [if_pos hck]; exact fun hh => Option.noConfusion hh
          · rw [if_neg hck]; exact h

/-- After a fully successful pass, a key whose last market entry parsed to
`inst` reads back exactly `inst`. -/
lemma load_instruments_loop_last (ctx : BuildCtx) (cache : Dict Currency) :
    ∀ (pre : List (String × RawMarket)) (k : String) (m : RawMarket)
      (post : List (String × RawMarket)) (st st' : Dict Instrument) (inst : Instrument),
      load_instruments_loop ctx cache (pre ++ (k, m) :: post) st = (st', none) →
      k ∉ post.map Prod.fst →
      parse_entry ctx cache k m = .ok inst →
      dlookup st' k = some inst := by
  intro pre
  induction pre with
  | nil =>
      intro k m post st st' inst hload hk hp
      simp only [List.nil_append, load_instruments_loop] at hload
      rw [hp] at hload
      dsimp only at hload
      have hst := load_instruments_loop_stable ctx cache post (dinsert st k inst) k hk
      rw [hload] at hst
      dsimp only at hst
      rw [hst, dlookup_dinsert, if_pos rfl]
  | cons hd tl ih =>
      intro k m post st st' inst hload hk hp
      obtain ⟨k0, m0⟩ := hd
      simp only [List.cons_append, load_instruments_loop] at hload
      cases hp0 : parse_entry ctx cache k0 m0 with
      | error e =>
          rw [hp0] at hload
          dsimp only at hload
          exact absurd (congrArg Prod.snd hload) (by simp)
      | ok i0 =>
          rw [hp0] at hload
          dsimp only at hload
          exact ih k m post (dinsert st k0 i0) st' inst hload hk hp

/-- A pass that fails at entry `(k, m)` after an all-successful prefix
returns the state reached by the prefix, paired with the parse error. -/
lemma load_instruments_loop_error (ctx : BuildCtx) (cache : Dict Currency) :
    ∀ (pre : List (String × RawMarket)) (k : String) (m : RawMarket)
      (rest : List (String × RawMarket)) (st : Dict Instrument) (e : PyErr),
      (∀ pair ∈ pre, isOkE (parse_entry ctx cache pair.1 pair.2) = true) →
      parse_entry ctx cache k m = .error e →
      load_instruments_loop ctx cache (pre ++ (k, m) :: rest) st
        = ((load_instruments_loop ctx cache pre st).1, some e)
      ∧ (load_instruments_loop ctx cache pre st).2 = none := by
  intro pre
  induction pre with
  | nil =>
      intro k m rest st e _ hp
      refine ⟨?_, rfl⟩
      simp only [List.nil_append, load_instruments_loop]
      rw [hp]
  | cons hd tl ih =>
      intro k m rest st e hok hp
      obtain ⟨k0, m0⟩ := hd
      have hok0 := hok (k0, m0) (List.mem_cons_self _ _)
      cases hp0 : parse_entry ctx cache k0 m0 with
      | error e0 =>
          rw [hp0] at hok0
          simp [isOkE] at hok0
      | ok i0 =>
          have hoktl : ∀ pair ∈ tl, isOkE (parse_entry ctx cache pair.1 pair.2) = true :=
            fun pair hm => hok pair (List.mem_cons_of_mem _ hm)
          have hih := ih k m rest (dinsert st k0 i0) e hoktl hp
          constructor
          · simp only [List.cons_append, load_instruments_loop]
            rw [hp0]
            dsimp only
            exact hih.1
          · simp only [load_instruments_loop]
            rw [hp0]
            dsimp only
            exact hih.2

/-- Currency-loop analogue of `load_instruments_loop_mono`. -/
lemma load_currencies_loop_mono (isFiat : String → Bool) (mode : Int) :
    ∀ (entries : List (String × RawCurrency)) (st : Dict Currency) (c : String),
      dlookup st c ≠ none →
      dlookup (load_currencies_loop isFiat mode entries st).1 c ≠ none := by
  intro entries
  induction entries with
  | nil => intro st c h; exact h
  | cons hd tl ih =>
      intro st c h
      obtain ⟨k, v⟩ := hd
      simp only [load_currencies_loop]
      cases hv : v.precision with
      | none => exact h
      | some pv =>
          dsimp only
          apply ih
          rw [dlookup_dinsert]
          by_cases hck : c = k
          · rw [if_pos hck]; exact fun hh => Option.noConfusion hh
          · rw [if_neg hck]; exact h

/-- Currency-loop analogue of `load_instruments_loop_stable`. -/
lemma load_currencies_loop_stable (isFiat : String → Bool) (mode : Int) :
    ∀ (entries : List (String × RawCurrency)) (st : Dict Currency) (c : String),
      c ∉ entries.map Prod.fst →
      dlookup (load_currencies_loop isFiat mode entries st).1 c = dlookup st c := by
  intro entries
  induction entries with
  | nil => intro st c _; rfl
  | cons hd tl ih =>
      intro st c h
      obtain ⟨k, v⟩ := hd
      simp only [List.map_cons, List.mem_cons] at h
      push_neg at h
      obtain ⟨hck, htl⟩ := h
      simp only [load_currencies_loop]
      cases hv : v.precision with
      | none => rfl
      | some pv =>
          dsimp only
          rw [ih _ c htl, dlookup_dinsert, if_neg hck]

lemma ebind_ok {ε α β : Type} (a : α) (f : α → Except ε β) :
    (Except.ok a >>= f) = f a := rfl

lemma ebind_err {ε α β : Type} (e : ε) (f : α → Except ε β) :
    ((Except.error e : Except ε α) >>= f) = Except.error e := rfl

/-- A pre-existing cached instrument used by the concrete load fixtures; its
price precision 7 differs from anything `marketA` parses to. -/
def oldInstrument : Instrument :=
  ⟨⟨"OLD", "BINANCE"⟩, .crypto, .undefined, none, sampleCurrency, sampleCurrency, false,
   7, 7, ⟨1, 7⟩, ⟨1, 0⟩, ⟨1, 0⟩, ⟨1, none⟩, none, none, none, none, none, none,
   ⟨0, 0⟩, ⟨0, 0⟩, ⟨0, 0⟩, ⟨0, 0⟩, [], 0, emptyMarket⟩

/-- A provider that already caches `oldInstrument` under `"OLD"`. -/
def p0 : Provider := ⟨"BINANCE", 1, [], [("OLD", oldInstrument)]⟩

/-- Anatomy of a successful `_parse_instrument` run: every structurally
required step succeeded and the result is the record of lines 241-268 built
from those step results. -/
lemma parse_instrument_ok_shape
    (global : String → Option Currency) (cache : Dict Currency) (clientName : String)
    (mode : Int) (now : Nat) (symbol : SymbolId) (values : RawMarket) (inst : Instrument)
    (h : parse_instrument global cache clientName mode now symbol values = .ok inst) :
    ∃ pre b q limits amountB info costB,
      resolvePrecisions clientName mode values = .ok pre
      ∧ resolveBaseCurrency global cache values = .ok b
      ∧ resolveQuoteCurrency global cache values = .ok q
      ∧ values.limits = some limits ∧ limits.amount = some amountB
      ∧ values.info = some info ∧ limits.cost = some costB
      ∧ inst = ⟨symbol, AssetClass.crypto,
          (match values.type with
            | some s => parseAssetTypeStr (pyUpper s)
            | none => AssetType.undefined),
          b, q, q, false, pre.1, pre.2.1, pre.2.2, ⟨1, 0⟩, ⟨1, 0⟩,
          (match info.lotSize with
            | some v => Quantity.mk v.toRat none
            | none =>
              match amountB.min.map (fun v => Quantity.mk v.toRat (some pre.2.1)) with
              | some mq => Quantity.mk mq.value (some pre.2.1)
              | none => Quantity.mk 1 none),
          amountB.max.map (fun v => Quantity.mk v.toRat (some pre.2.1)),
          amountB.min.map (fun v => Quantity.mk v.toRat (some pre.2.1)),
          costB.max.map (fun v => Money.mk v.toRat q),
          costB.min.map (fun v => Money.mk v.toRat q),
          costB.max.map (fun v => Price.mk v.toRat pre.1),
          costB.min.map (fun v => Price.mk v.toRat pre.1),
          ⟨0, 0⟩, ⟨0, 0⟩,
          (match values.maker with
            | none => PyDecimal.mk 0 0
            | some v => pyDecimalOfFloat v),
          (match values.taker with
            | none => PyDecimal.mk 0 0
            | some v => pyDecimalOfFloat v),
          [], now, values⟩ := by
  simp only [parse_instrument] at h
  cases hpre : resolvePrecisions clientName mode values with
  | error e => rw [hpre, ebind_err] at h; exact Except.noConfusion h
  | ok pre =>
  rw [hpre] at h
  simp only [ebind_ok] at h
  cases hb : resolveBaseCurrency global cache values with
  | error e => rw [hb, ebind_err] at h; exact Except.noConfusion h
  | ok b =>
  rw [hb] at h
  simp only [ebind_ok] at h
  cases hq : resolveQuoteCurrency global cache values with
  | error e => rw [hq, ebind_err] at h; exact Except.noConfusion h
  | ok q =>
  rw [hq] at h
  simp only [ebind_ok] at h
  cases hl : values.limits with
  | none => rw [hl] at h; dsimp only at h; exact Except.noConfusion h
  | some limits =>
  rw [hl] at h
  dsimp only at h
  simp only [ebind_ok] at h
  cases ha : limits.amount with
  | none => rw [ha] at h; dsimp only at h; exact Except.noConfusion h
  | some amountB =>
  rw [ha] at h
  dsimp only at h
  simp only [ebind_ok] at h
  cases hi : values.info with
  | none => rw [hi] at h; dsimp only at h; exact Except.noConfusion h
  | some info =>
  rw [hi] at h
  dsimp only at h
  simp only [ebind_ok] at h
  cases hc : limits.cost with
  | none => rw [hc] at h; dsimp only at h; exact Except.noConfusion h
  | some costB =>
  rw [hc] at h
  dsimp only at h
  simp only [ebind_ok] at h
  simp only [Except.ok.injEq] at h
  refine ⟨pre, b, q, limits, amountB, info, costB, ?_, ?_, ?_, ?_, ?_, ?_, ?_, h.symm⟩ <;>
    first | rfl | assumption

/-- Writing one cell leaves every other cell unchanged. -/
lemma PyHeap.read_write_ne (h : PyHeap) (a a' : Nat) (d : Dict Instrument) (hne : a ≠ a') :
    (h.write a d).read a' = h.read a' := by
  simp only [PyHeap.write, PyHeap.read, List.getD_eq_getElem?_getD]
  rw [List.getElem?_set_ne hne]

/-- Mutating one cell, arbitrarily often, leaves every other cell unchanged. -/
lemma applyMuts_read_ne :
    ∀ (muts : List (Dict Instrument → Dict Instrument)) (h : PyHeap) (a a' : Nat),
      a ≠ a' → (applyMuts h a muts).read a' = h.read a' := by
  intro muts
  induction muts with
  | nil => intro h a a' _; rfl
  | cons f fs ih =>
      intro h a a' hne
      simp only [applyMuts]
      rw [ih _ a a' hne, PyHeap.read_write_ne h a a' _ hne]

/-- The fresh cell allocated by `get_all` sits past every existing cell, so
reading a valid provider address through it is unchanged. -/
lemma get_all_read_internal (h : PyHeap) (p : ProviderRef)
    (hv : p.instrAddr < h.cells.length) :
    (get_all h p).1.read p.instrAddr = h.read p.instrAddr := by
  simp only [get_all, PyHeap.alloc, PyHeap.read, List.getD_eq_getElem?_getD]
  rw [List.getElem?_append_left hv]

/-- C9: `get_all` hands out a defensive copy: however the returned dict is
mutated afterwards (entries added, removed or replaced), the provider's
internal dict cell is bit-for-bit unchanged, so every subsequent `get` (and
the contents any subsequent `get_all` would copy) is what it would have been
without the mutation. -/
theorem c9_get_all_defensive_copy :
    ∀ (h : PyHeap) (p : ProviderRef) (muts : List (Dict Instrument → Dict Instrument))
      (s : SymbolId),
      p.instrAddr < h.cells.length →
      getRef (applyMuts (get_all h p).1 (get_all h p).2 muts) p s = getRef h p s
      ∧ PyHeap.read (applyMuts (get_all h p).1 (get_all h p).2 muts) p.instrAddr
          = PyHeap.read h p.instrAddr := by
  intro h p muts s hv
  have hne : (get_all h p).2 ≠ p.instrAddr := by
    simp only [get_all, PyHeap.alloc]
    omega
  have hread : PyHeap.read (applyMuts (get_all h p).1 (get_all h p).2 muts) p.instrAddr
      = PyHeap.read h p.instrAddr := by
    rw [applyMuts_read_ne muts (get_all h p).1 (get_all h p).2 p.instrAddr hne]
    exact get_all_read_internal h p hv
  exact ⟨by simp only [getRef, hread], hread⟩

/-- Witness for C9: one provider dict at address 0, a copy taken, then the
copy emptied; `get` still sees the original entry. -/
theorem c9_witness :
    getRef
      (applyMuts (get_all ⟨[[("OLD", oldInstrument)]]⟩ ⟨0⟩).1
        (get_all ⟨[[("OLD", oldInstrument)]]⟩ ⟨0⟩).2 [fun _ => []])
      ⟨0⟩ ⟨"OLD", "BINANCE"⟩
      = getRef ⟨[[("OLD", oldInstrument)]]⟩ ⟨0⟩ ⟨"OLD", "BINANCE"⟩ :=
  (c9_get_all_defensive_copy ⟨[[("OLD", oldInstrument)]]⟩ ⟨0⟩ [fun _ => []]
    ⟨"OLD", "BINANCE"⟩ (by decide)).1

/-- C6: across loads that complete successfully the instrument map (and the
currency map) never loses a key: a reload never deletes anything, an entry
whose symbol code reappears is overwritten in place with the freshly parsed
instrument (the last market entry for that code wins), and an entry whose
symbol code is absent from the reload survives unchanged, still reachable
via `get`. -/
theorem c6_reload_monotone :
    (∀ (ctx : BuildCtx) (cache : Dict Currency) (markets : List (String × RawMarket))
       (st st' : Dict Instrument),
       load_instruments_loop ctx cache markets st = (st', none) →
       (∀ c, dlookup st c ≠ none → dlookup st' c ≠ none)
       ∧ (∀ c, c ∉ markets.map Prod.fst → dlookup st' c = dlookup st c)
       ∧ (∀ pre k m post inst, markets = pre ++ (k, m) :: post → k ∉ post.map Prod.fst →
            parse_entry ctx cache k m = .ok inst → dlookup st' k = some inst))
  ∧ (∀ (isFiat : String → Bool) (mode : Int) (entries : List (String × RawCurrency))
       (st st' : Dict Currency),
       load_currencies_loop isFiat mode entries st = (st', none) →
       ∀ c, dlookup st c ≠ none → dlookup st' c ≠ none) := by
  constructor
  · intro ctx cache markets st st' hload
    refine ⟨?_, ?_, ?_⟩
    · intro c h
      have hm := load_instruments_loop_mono ctx cache markets st c h
      rw [hload] at hm
      exact hm
    · intro c h
      have hs := load_instruments_loop_stable ctx cache markets st c h
      rw [hload] at hs
      exact hs
    · intro pre k m post inst hmk hk hp
      exact load_instruments_loop_last ctx cache pre k m post st st' inst (hmk ▸ hload) hk hp
  · intro isFiat mode entries st st' hload c h
    have hm := load_currencies_loop_mono isFiat mode entries st c h
    rw [hload] at hm
    exact hm

set_option maxRecDepth 40000 in
/-- Witness for C6: loading the single fresh market `"NEW"` over a cache
holding `"OLD"` keeps `"OLD"` readable with its old value. -/
theorem c6_witness :
    dlookup (load_instruments_loop ctx0 [] [("NEW", marketA)] [("OLD", oldInstrument)]).1 "OLD"
      = some oldInstrument := by
  cases hres : load_instruments_loop ctx0 [] [("NEW", marketA)] [("OLD", oldInstrument)] with
  | mk st' err =>
      cases err with
      | none =>
          have h := ((c6_reload_monotone.1 ctx0 [] [("NEW", marketA)]
            [("OLD", oldInstrument)] st' hres).2.1) "OLD" (by decide)
          dsimp only
          rw [h]
          decide
      | some e =>
          exfalso
          have hok : (load_instruments_loop ctx0 [] [("NEW", marketA)]
              [("OLD", oldInstrument)]).2 = none := by decide
          rw [hres] at hok
          exact Option.noConfusion hok

/-- C5 (amended): a load pass that fails at some market entry returns the
parse error to the caller; the instruments built from the entries before the
failing one remain upserted (the final map is exactly the prefix pass over
the previous map, so no key present before the load is deleted), `count` is
left untouched, and a previously cached entry is unchanged unless an earlier
entry of the failing pass re-parsed its symbol code, in which case it holds
the freshly parsed instrument instead. -/
theorem c5_partial_load :
    ∀ (p : Provider) (ctx : BuildCtx) (pre : List (String × RawMarket)) (k : String)
      (m : RawMarket) (rest : List (String × RawMarket)) (e : PyErr),
      (∀ pair ∈ pre, isOkE (parse_entry ctx p.currencies pair.1 pair.2) = true) →
      parse_entry ctx p.currencies k m = .error e →
      p.load_instruments ctx (pre ++ (k, m) :: rest)
        = ({ p with
              instruments := (load_instruments_loop ctx p.currencies pre p.instruments).1 },
           some e)
      ∧ (∀ c, dlookup p.instruments c ≠ none →
          dlookup (p.load_instruments ctx (pre ++ (k, m) :: rest)).1.instruments c ≠ none) := by
  intro p ctx pre k m rest e hok hp
  have herr := load_instruments_loop_error ctx p.currencies pre k m rest p.instruments e hok hp
  constructor
  · unfold Provider.load_instruments
    rw [herr.1]
  · intro c h
    unfold Provider.load_instruments
    rw [herr.1]
    dsimp only
    have hm := load_instruments_loop_mono ctx p.currencies pre p.instruments c h
    exact hm

set_option maxRecDepth 40000 in
/-- Witness for C5: with `"OLD"` re-parsed successfully and `"BAD"` failing,
the load returns the `KeyError` and the state after the successful prefix. -/
theorem c5_witness :
    p0.load_instruments ctx0 [("OLD", marketA), ("BAD", emptyMarket)]
      = ({ p0 with
            instruments :=
              (load_instruments_loop ctx0 p0.currencies [("OLD", marketA)] p0.instruments).1 },
         some (.keyError "precision")) :=
  (c5_partial_load p0 ctx0 [("OLD", marketA)] "BAD" emptyMarket [] (.keyError "precision")
    (by decide) (by decide)).1

set_option maxRecDepth 40000 in
/-- Counterexample for C5 as stated: the failing load does raise and keeps
the key `"OLD"` present, but the entry is not unchanged — the successful
prefix overwrote it before the failure. -/
theorem c5_counterexample :
    (p0.load_instruments ctx0 [("OLD", marketA), ("BAD", emptyMarket)]).2
        = some (.keyError "precision")
    ∧ dlookup (p0.load_instruments ctx0
        [("OLD", marketA), ("BAD", emptyMarket)]).1.instruments "OLD" ≠ none
    ∧ dlookup (p0.load_instruments ctx0
        [("OLD", marketA), ("BAD", emptyMarket)]).1.instruments "OLD"
        ≠ some oldInstrument := by decide

set_option maxRecDepth 40000 in
/-- C4 (code evaluation at the failing input): under SIGNIFICANT_DIGITS
mode (ccxt mode 3), `_get_precision` falls off the end of the function and
returns the Cython default 0 instead of raising, so currency loading
silently builds `precision = 0` currencies; only the instrument-building
path (`_parse_instrument`) raises the advertised error. -/
theorem c4_significant_digits_paths :
    get_precision ⟨8, 0⟩ 3 = 0
    ∧ load_currencies_loop sampleIsFiat 3 [("BTC", ⟨some ⟨8, 0⟩⟩)] []
        = ([("BTC", ⟨"BTC", 0, .crypto⟩)], none)
    ∧ resolvePrecisions "BINANCE" 3 marketA
        = .error (.runtimeError "The BINANCE exchange is using SIGNIFICANT_DIGITS precision which is not currently supported in this version.") := by
  decide

/-- `marketA` with an unresolvable quote code `"ZZZ"`. -/
def marketZZZ : RawMarket :=
  ⟨marketA.precision, marketA.limits, marketA.type, none, some "ZZZ",
   marketA.info, none, none⟩

/-- C3 (amended): a quote code resolved by neither the canonical table nor
the cache makes the build fail with the `KeyError` of the cache indexing
(the `MissingCurrency` of the spec taxonomy); a market with no base field
builds with `base_currency` absent.  (A present but unresolvable base code
also raises — see the counterexample — which is where the claim as stated
fails.) -/
theorem c3_currency_resolution :
    (∀ (global : String → Option Currency) (cache : Dict Currency) (clientName : String)
       (mode : Int) (now : Nat) (symbol : SymbolId) (values : RawMarket)
       (pre : Int × Int × PyDecimal) (b : Option Currency) (qc : String),
       resolvePrecisions clientName mode values = .ok pre →
       resolveBaseCurrency global cache values = .ok b →
       values.quote = some qc → global qc = none → dlookup cache qc = none →
       parse_instrument global cache clientName mode now symbol values
         = .error (.keyError qc))
  ∧ (∀ (global : String → Option Currency) (cache : Dict Currency) (clientName : String)
       (mode : Int) (now : Nat) (symbol : SymbolId) (values : RawMarket) (inst : Instrument),
       values.base = none →
       parse_instrument global cache clientName mode now symbol values = .ok inst →
       inst.baseCurrency = none) := by
  constructor
  · intro global cache clientName mode now symbol values pre b qc hpre hb hquote hg hcache
    have hq : resolveQuoteCurrency global cache values = .error (.keyError qc) := by
      unfold resolveQuoteCurrency
      rw [hquote]
      dsimp only
      rw [hg]
      dsimp only
      rw [hcache]
    simp only [parse_instrument]
    rw [hpre]
    simp only [ebind_ok]
    rw [hb]
    simp only [ebind_ok]
    rw [hq, ebind_err]
  · intro global cache clientName mode now symbol values inst hbase h
    obtain ⟨pre, b, q, limits, amountB, info, costB, hpre, hb, hq, hl, ha, hi, hc, hinst⟩ :=
      parse_instrument_ok_shape global cache clientName mode now symbol values inst h
    have hbn : b = none := by
      unfold resolveBaseCurrency at hb
      rw [hbase] at hb
      exact (Except.ok.inj hb).symm
    subst hinst
    exact hbn

set_option maxRecDepth 40000 in
/-- Counterexample for C3 as stated: a market whose base code `"XYZ"`
resolves via neither path does not build with `base_currency` absent — the
cache indexing raises `KeyError("XYZ")` exactly as for a quote code. -/
theorem c3_counterexample :
    parse_instrument sampleGlobal [] "BINANCE" 2 0 ⟨"A", "BINANCE"⟩ marketBadBase
      = .error (.keyError "XYZ")
    ∧ isOkE (parse_instrument sampleGlobal [] "BINANCE" 2 0 ⟨"A", "BINANCE"⟩ marketBadBase)
      = false := by decide

set_option maxRecDepth 40000 in
/-- Witness for C3: the unresolvable quote `"ZZZ"` raises its `KeyError`,
and `marketA` (no base field) builds with `base_currency = none`. -/
theorem c3_witness :
    parse_instrument sampleGlobal [] "BINANCE" 2 0 ⟨"A", "BINANCE"⟩ marketZZZ
      = .error (.keyError "ZZZ")
    ∧ (parse_instrument sampleGlobal [] "BINANCE" 2 0 ⟨"A", "BINANCE"⟩ marketA).map
        Instrument.baseCurrency = .ok none := by
  constructor
  · exact c3_currency_resolution.1 sampleGlobal [] "BINANCE" 2 0 ⟨"A", "BINANCE"⟩ marketZZZ
      (2, 0, ⟨1, 2⟩) none "ZZZ" (by decide) (by decide) (by decide) (by decide) (by decide)
  · cases hp : parse_instrument sampleGlobal [] "BINANCE" 2 0 ⟨"A", "BINANCE"⟩ marketA with
    | ok inst =>
        have hbc := c3_currency_resolution.2 sampleGlobal [] "BINANCE" 2 0 ⟨"A", "BINANCE"⟩
          marketA inst rfl hp
        simp [Except.map, hbc]
    | error e =>
        exfalso
        have hok : isOkE (parse_instrument sampleGlobal [] "BINANCE" 2 0
            ⟨"A", "BINANCE"⟩ marketA) = true := by decide
        rw [hp] at hok
        simp [isOkE] at hok

/-- C7: the lot size of a built instrument is settled by exactly the
three-way fallback of providers.pyx lines 205-211, in order: an explicit
`info.lotSize` wins (wrapped without a precision argument), else a present
`limits.amount.min` is re-wrapped at `size_precision`, else the unit
quantity 1; the guards are mutually exclusive so exactly one branch fires. -/
theorem c7_lot_size_fallback :
    ∀ (global : String → Option Currency) (cache : Dict Currency) (clientName : String)
      (mode : Int) (now : Nat) (symbol : SymbolId) (values : RawMarket) (inst : Instrument),
      parse_instrument global cache clientName mode now symbol values = .ok inst →
      (∀ i v, values.info = some i → i.lotSize = some v →
          inst.lotSize = Quantity.mk v.toRat none)
      ∧ (∀ i l a mn pre, values.info = some i → i.lotSize = none →
          values.limits = some l → l.amount = some a → a.min = some mn →
          resolvePrecisions clientName mode values = .ok pre →
          inst.lotSize = Quantity.mk mn.toRat (some pre.2.1))
      ∧ (∀ i l a, values.info = some i → i.lotSize = none →
          values.limits = some l → l.amount = some a → a.min = none →
          inst.lotSize = Quantity.mk 1 none) := by
  intro global cache clientName mode now symbol values inst h
  obtain ⟨pre, b, q, limits, amountB, info, costB, hpre, hb, hq, hl, ha, hi, hc, hinst⟩ :=
    parse_instrument_ok_shape global cache clientName mode now symbol values inst h
  subst hinst
  refine ⟨?_, ?_, ?_⟩
  · intro i v hi2 hv
    have hii : info = i := Option.some.inj (hi ▸ hi2)
    subst hii
    dsimp only
    rw [hv]
  · intro i l a mn pre2 hi2 hv hl2 ha2 hmn hpre2
    have hii : info = i := Option.some.inj (hi ▸ hi2)
    subst hii
    have hll : limits = l := Option.some.inj (hl ▸ hl2)
    subst hll
    have haa : amountB = a := Option.some.inj (ha ▸ ha2)
    subst haa
    have hpp : pre = pre2 := Except.ok.inj (hpre ▸ hpre2)
    subst hpp
    dsimp only
    rw [hv, hmn]
    simp only [Option.map_some']
  · intro i l a hi2 hv hl2 ha2 hmn
    have hii : info = i := Option.some.inj (hi ▸ hi2)
    subst hii
    have hll : limits = l := Option.some.inj (hl ▸ hl2)
    subst hll
    have haa : amountB = a := Option.some.inj (ha ▸ ha2)
    subst haa
    dsimp only
    rw [hv, hmn]
    simp only [Option.map_none']

set_option maxRecDepth 40000 in
/-- Witness for C7 at a market with an explicit `info.lotSize = 5`. -/
theorem c7_witness :
    (parse_instrument sampleGlobal [] "BINANCE" 2 0 ⟨"A", "BINANCE"⟩ marketLot).map
      Instrument.lotSize = .ok (Quantity.mk (PyNum.toRat ⟨5, 0⟩) none) := by
  cases hp : parse_instrument sampleGlobal [] "BINANCE" 2 0 ⟨"A", "BINANCE"⟩ marketLot with
  | ok inst =>
      have hls := (c7_lot_size_fallback sampleGlobal [] "BINANCE" 2 0 ⟨"A", "BINANCE"⟩
        marketLot inst hp).1 ⟨some ⟨5, 0⟩⟩ ⟨5, 0⟩ rfl rfl
      simp [Except.map, hls]
  | error e =>
      exfalso
      have hok : isOkE (parse_instrument sampleGlobal [] "BINANCE" 2 0
          ⟨"A", "BINANCE"⟩ marketLot) = true := by decide
      rw [hp] at hok
      simp [isOkE] at hok

/-- `marketA` without its `quote` key. -/
def marketNoQuote : RawMarket :=
  ⟨marketA.precision, marketA.limits, marketA.type, none, none, marketA.info, none, none⟩

/-- `marketA` without its `limits` block. -/
def marketNoLimits : RawMarket :=
  ⟨marketA.precision, none, marketA.type, none, marketA.quote, marketA.info, none, none⟩

/-- `marketA` with a `limits` block lacking the `amount` sub-block. -/
def marketNoAmount : RawMarket :=
  ⟨marketA.precision, some ⟨none, some ⟨none, none⟩⟩, marketA.type, none, marketA.quote,
   marketA.info, none, none⟩

/-- `marketA` without its `info` block. -/
def marketNoInfo : RawMarket :=
  ⟨marketA.precision, marketA.limits, marketA.type, none, marketA.quote, none, none, none⟩

/-- `marketA` with a `limits` block lacking the `cost` sub-block. -/
def marketNoCost : RawMarket :=
  ⟨marketA.precision, some ⟨some ⟨none, some ⟨1, 0⟩⟩, none⟩, marketA.type, none,
   marketA.quote, marketA.info, none, none⟩

/-- C8 (amended): an absent structurally required block fails the build with
the generic untyped lookup error of the Python runtime — `KeyError` naming
only the missing key for the indexed blocks (`precision`, `quote`, `limits`,
`info`), `AttributeError` (from `None.get`) for absent
`limits.amount`/`limits.cost` blocks — never with the typed
`MalformedMarketDefinition{symbol, field}` of the spec taxonomy.  The six
conjuncts follow the evaluation order of the source. -/
theorem c8_structural_errors :
    (∀ (global : String → Option Currency) (cache : Dict Currency) (clientName : String)
       (mode : Int) (now : Nat) (symbol : SymbolId) (values : RawMarket),
       values.precision = none →
       parse_instrument global cache clientName mode now symbol values
         = .error (.keyError "precision"))
  ∧ (∀ (global : String → Option Currency) (cache : Dict Currency) (clientName : String)
       (mode : Int) (now : Nat) (symbol : SymbolId) (values : RawMarket)
       (pre : Int × Int × PyDecimal) (b : Option Currency),
       resolvePrecisions clientName mode values = .ok pre →
       resolveBaseCurrency global cache values = .ok b →
       values.quote = none →
       parse_instrument global cache clientName mode now symbol values
         = .error (.keyError "quote"))
  ∧ (∀ (global : String → Option Currency) (cache : Dict Currency) (clientName : String)
       (mode : Int) (now : Nat) (symbol : SymbolId) (values : RawMarket)
       (pre : Int × Int × PyDecimal) (b : Option Currency) (q : Currency),
       resolvePrecisions clientName mode values = .ok pre →
       resolveBaseCurrency global cache values = .ok b →
       resolveQuoteCurrency global cache values = .ok q →
       values.limits = none →
       parse_instrument global cache clientName mode now symbol values
         = .error (.keyError "limits"))
  ∧ (∀ (global : String → Option Currency) (cache : Dict Currency) (clientName : String)
       (mode : Int) (now : Nat) (symbol : SymbolId) (values : RawMarket)
       (pre : Int × Int × PyDecimal) (b : Option Currency) (q : Currency)
       (limits : RawLimits),
       resolvePrecisions clientName mode values = .ok pre →
       resolveBaseCurrency global cache values = .ok b →
       resolveQuoteCurrency global cache values = .ok q →
       values.limits = some limits → limits.amount = none →
       parse_instrument global cache clientName mode now symbol values
         = .error PyErr.attributeError)
  ∧ (∀ (global : String → Option Currency) (cache : Dict Currency) (clientName : String)
       (mode : Int) (now : Nat) (symbol : SymbolId) (values : RawMarket)
       (pre : Int × Int × PyDecimal) (b : Option Currency) (q : Currency)
       (limits : RawLimits) (amountB : RawBounds),
       resolvePrecisions clientName mode values = .ok pre →
       resolveBaseCurrency global cache values = .ok b →
       resolveQuoteCurrency global cache values = .ok q →
       values.limits = some limits → limits.amount = some amountB →
       values.info = none →
       parse_instrument global cache clientName mode now symbol values
         = .error (.keyError "info"))
  ∧ (∀ (global : String → Option Currency) (cache : Dict Currency) (clientName : String)
       (mode : Int) (now : Nat) (symbol : SymbolId) (values : RawMarket)
       (pre : Int × Int × PyDecimal) (b : Option Currency) (q : Currency)
       (limits : RawLimits) (amountB : RawBounds) (i : RawInfo),
       resolvePrecisions clientName mode values = .ok pre →
       resolveBaseCurrency global cache values = .ok b →
       resolveQuoteCurrency global cache values = .ok q →
       values.limits = some limits → limits.amount = some amountB →
       values.info = some i → limits.cost = none →
       parse_instrument global cache clientName mode now symbol values
         = .error PyErr.attributeError) := by
  refine ⟨?_, ?_, ?_, ?_, ?_, ?_⟩
  · intro global cache clientName mode now symbol values hp
    have hpre : resolvePrecisions clientName mode values = .error (.keyError "precision") := by
      unfold resolvePrecisions
      rw [hp]
    simp only [parse_instrument]
    rw [hpre, ebind_err]
  · intro global cache clientName mode now symbol values pre b hpre hb hquote
    have hq : resolveQuoteCurrency global cache values = .error (.keyError "quote") := by
      unfold resolveQuoteCurrency
      rw [hquote]
    simp only [parse_instrument]
    rw [hpre]
    simp only [ebind_ok]
    rw [hb]
    simp only [ebind_ok]
    rw [hq, ebind_err]
  · intro global cache clientName mode now symbol values pre b q hpre hb hq hl
    simp only [parse_instrument]
    rw [hpre]
    simp only [ebind_ok]
    rw [hb]
    simp only [ebind_ok]
    rw [hq]
    simp only [ebind_ok]
    rw [hl]
    dsimp only
    rw [ebind_err]
  · intro global cache clientName mode now symbol values pre b q limits hpre hb hq hl ha
    simp only [parse_instrument]
    rw [hpre]
    simp only [ebind_ok]
    rw [hb]
    simp only [ebind_ok]
    rw [hq]
    simp only [ebind_ok]
    rw [hl]
    dsimp only
    simp only [ebind_ok]
    rw [ha]
    dsimp only
    rw [ebind_err]
  · intro global cache clientName mode now symbol values pre b q limits amountB
      hpre hb hq hl ha hinfo
    simp only [parse_instrument]
    rw [hpre]
    simp only [ebind_ok]
    rw [hb]
    simp only [ebind_ok]
    rw [hq]
    simp only [ebind_ok]
    rw [hl]
    dsimp only
    simp only [ebind_ok]
    rw [ha]
    dsimp only
    simp only [ebind_ok]
    rw [hinfo]
    dsimp only
    rw [ebind_err]
  · intro global cache clientName mode now symbol values pre b q limits amountB i
      hpre hb hq hl ha hinfo hc
    simp only [parse_instrument]
    rw [hpre]
    simp only [ebind_ok]
    rw [hb]
    simp only [ebind_ok]
    rw [hq]
    simp only [ebind_ok]
    rw [hl]
    dsimp only
    simp only [ebind_ok]
    rw [ha]
    dsimp only
    simp only [ebind_ok]
    rw [hinfo]
    dsimp only
    simp only [ebind_ok]
    rw [hc]
    dsimp only
    rw [ebind_err]

set_option maxRecDepth 40000 in
/-- Counterexample for C8 as stated: a market without a `precision` block
fails with the untyped `KeyError("precision")`, not with a typed
`MalformedMarketDefinition` value carrying the symbol and the field. -/
theorem c8_counterexample :
    parse_instrument sampleGlobal [] "BINANCE" 2 0 ⟨"A", "BINANCE"⟩ emptyMarket
      = .error (.keyError "precision")
    ∧ errIsMalformed
        (parse_instrument sampleGlobal [] "BINANCE" 2 0 ⟨"A", "BINANCE"⟩ emptyMarket)
      = false := by decide

set_option maxRecDepth 40000 in
/-- Witness for C8 at concrete markets each missing exactly one structural
block: `precision`, `quote`, `limits`, `limits.amount`, `info` and
`limits.cost`. -/
theorem c8_witness :
    parse_instrument sampleGlobal [] "BINANCE" 2 0 ⟨"A", "BINANCE"⟩ emptyMarket
      = .error (.keyError "precision")
    ∧ parse_instrument sampleGlobal [] "BINANCE" 2 0 ⟨"A", "BINANCE"⟩ marketNoQuote
      = .error (.keyError "quote")
    ∧ parse_instrument sampleGlobal [] "BINANCE" 2 0 ⟨"A", "BINANCE"⟩ marketNoLimits
      = .error (.keyError "limits")
    ∧ parse_instrument sampleGlobal [] "BINANCE" 2 0 ⟨"A", "BINANCE"⟩ marketNoAmount
      = .error PyErr.attributeError
    ∧ parse_instrument sampleGlobal [] "BINANCE" 2 0 ⟨"A", "BINANCE"⟩ marketNoInfo
      = .error (.keyError "info")
    ∧ parse_instrument sampleGlobal [] "BINANCE" 2 0 ⟨"A", "BINANCE"⟩ marketNoCost
      = .error PyErr.attributeError :=
  ⟨c8_structural_errors.1 sampleGlobal [] "BINANCE" 2 0 ⟨"A", "BINANCE"⟩ emptyMarket rfl,
   c8_structural_errors.2.1 sampleGlobal [] "BINANCE" 2 0 ⟨"A", "BINANCE"⟩ marketNoQuote
     (2, 0, ⟨1, 2⟩) none (by decide) (by decide) rfl,
   c8_structural_errors.2.2.1 sampleGlobal [] "BINANCE" 2 0 ⟨"A", "BINANCE"⟩ marketNoLimits
     (2, 0, ⟨1, 2⟩) none sampleCurrency (by decide) (by decide) (by decide) rfl,
   c8_structural_errors.2.2.2.1 sampleGlobal [] "BINANCE" 2 0 ⟨"A", "BINANCE"⟩ marketNoAmount
     (2, 0, ⟨1, 2⟩) none sampleCurrency ⟨none, some ⟨none, none⟩⟩
     (by decide) (by decide) (by decide) rfl rfl,
   c8_structural_errors.2.2.2.2.1 sampleGlobal [] "BINANCE" 2 0 ⟨"A", "BINANCE"⟩ marketNoInfo
     (2, 0, ⟨1, 2⟩) none sampleCurrency ⟨some ⟨none, some ⟨1, 0⟩⟩, some ⟨none, none⟩⟩
     ⟨none, some ⟨1, 0⟩⟩ (by decide) (by decide) (by decide) rfl rfl rfl,
   c8_structural_errors.2.2.2.2.2 sampleGlobal [] "BINANCE" 2 0 ⟨"A", "BINANCE"⟩ marketNoCost
     (2, 0, ⟨1, 2⟩) none sampleCurrency ⟨some ⟨none, some ⟨1, 0⟩⟩, none⟩
     ⟨none, some ⟨1, 0⟩⟩ ⟨none⟩ (by decide) (by decide) (by decide) rfl rfl rfl rfl⟩

/-- C10: in the explicit `info.lotSize` branch the quantity is constructed
from the raw value with no precision argument, so the resulting lot size is
a function of the raw value alone — independent of the derived
`size_precision` — whereas the `min_quantity` fallback branch does wrap at
`size_precision`. -/
theorem c10_lot_size_precision_independence :
    ∀ (global : String → Option Currency) (cache : Dict Currency) (clientName : String)
      (mode : Int) (now : Nat) (symbol : SymbolId) (values : RawMarket) (inst : Instrument)
      (i : RawInfo),
      parse_instrument global cache clientName mode now symbol values = .ok inst →
      values.info = some i →
      (∀ v, i.lotSize = some v → inst.lotSize = Quantity.mk v.toRat none)
      ∧ (∀ l a mn pre, i.lotSize = none → values.limits = some l → l.amount = some a →
          a.min = some mn → resolvePrecisions clientName mode values = .ok pre →
          inst.lotSize.precisionArg = some pre.2.1) := by
  intro global cache clientName mode now symbol values inst i h hi2
  obtain ⟨pre, b, q, limits, amountB, info, costB, hpre, hb, hq, hl, ha, hi, hc, hinst⟩ :=
    parse_instrument_ok_shape global cache clientName mode now symbol values inst h
  have hii : info = i := Option.some.inj (hi ▸ hi2)
  subst hii
  subst hinst
  constructor
  · intro v hv
    dsimp only
    rw [hv]
  · intro l a mn pre2 hv hl2 ha2 hmn hpre2
    have hll : limits = l := Option.some.inj (hl ▸ hl2)
    subst hll
    have haa : amountB = a := Option.some.inj (ha ▸ ha2)
    subst haa
    have hpp : pre = pre2 := Except.ok.inj (hpre ▸ hpre2)
    subst hpp
    dsimp only
    rw [hv, hmn]
    simp only [Option.map_some']

set_option maxRecDepth 40000 in
/-- Witness for C10: with `lotSize = 5` the lot size carries no precision
argument even though the derived size precision is 3; with the fallback
market the lot size carries the derived size precision 0. -/
theorem c10_witness :
    (parse_instrument sampleGlobal [] "BINANCE" 2 0 ⟨"A", "BINANCE"⟩ marketLotPrec3).map
        Instrument.lotSize = .ok (Quantity.mk (PyNum.toRat ⟨5, 0⟩) none)
    ∧ (parse_instrument sampleGlobal [] "BINANCE" 2 0 ⟨"A", "BINANCE"⟩ marketA).map
        (fun j => j.lotSize.precisionArg) = .ok (some 0) := by
  constructor
  · cases hp : parse_instrument sampleGlobal [] "BINANCE" 2 0 ⟨"A", "BINANCE"⟩ marketLotPrec3 with
    | ok inst =>
        have hls := (c10_lot_size_precision_independence sampleGlobal [] "BINANCE" 2 0
          ⟨"A", "BINANCE"⟩ marketLotPrec3 inst ⟨some ⟨5, 0⟩⟩ hp rfl).1 ⟨5, 0⟩ rfl
        simp [Except.map, hls]
    | error e =>
        exfalso
        have hok : isOkE (parse_instrument sampleGlobal [] "BINANCE" 2 0
            ⟨"A", "BINANCE"⟩ marketLotPrec3) = true := by decide
        rw [hp] at hok
        simp [isOkE] at hok
  · cases hp : parse_instrument sampleGlobal [] "BINANCE" 2 0 ⟨"A", "BINANCE"⟩ marketA with
    | ok inst =>
        have hls := (c10_lot_size_precision_independence sampleGlobal [] "BINANCE" 2 0
          ⟨"A", "BINANCE"⟩ marketA inst ⟨none⟩ hp rfl).2 ⟨some ⟨none, some ⟨1, 0⟩⟩, some ⟨none, none⟩⟩
          ⟨none, some ⟨1, 0⟩⟩ ⟨1, 0⟩ (2, 0, ⟨1, 2⟩) rfl rfl rfl rfl (by decide)
        simp [Except.map, hls]
    | error e =>
        exfalso
        have hok : isOkE (parse_instrument sampleGlobal [] "BINANCE" 2 0
            ⟨"A", "BINANCE"⟩ marketA) = true := by decide
        rw [hp] at hok
        simp [isOkE] at hok
